import Mathlib

/-!
Verification of the OpsPilot multi-provider LLM subsystem
(`opspilot/utils/llm_providers.py`, `opspilot/constants.py`,
`opspilot/exceptions.py`).

The Python code is shallowly embedded: strings are `List Char`, wall-clock
timestamps are `Int` seconds passed explicitly (the code reads
`datetime.now()`), latencies and backoff delays are `ℚ`, and each concrete
network call of a provider is an oracle `Nat → AttemptRes` indexed by the
provider's running attempt counter (`stats.total_calls`).  `json.loads` is
modelled by an executable recursive-descent JSON parser; numeric literals are
kept as lexemes since no property here depends on float semantics.
-/

namespace OpsPilot

/-! ### Python string primitives on `List Char` -/

/-- Whitespace for Python's `str.strip` (ASCII part, which is all the code
ever meets). -/
def isSpaceChar (c : Char) : Bool :=
  c = ' ' || c = '\t' || c = '\n' || c = '\r' || c = '\x0b' || c = '\x0c'

def pyStrip (s : List Char) : List Char :=
  ((s.dropWhile isSpaceChar).reverse.dropWhile isSpaceChar).reverse

def lowerChars (s : List Char) : List Char := s.map Char.toLower

/-- Python `s.find(pat)` (first index of a substring), as an `Option`. -/
def findSub (pat : List Char) : List Char → Option Nat
  | [] => if pat.isEmpty then some 0 else none
  | c :: tl =>
    if pat.isPrefixOf (c :: tl) then some 0 else (findSub pat tl).map (· + 1)

/-- Python `pat in s`. -/
def containsSub (pat s : List Char) : Bool := (findSub pat s).isSome

/-- Python `s.rfind(c)` for a single character, as an `Option`. -/
def rlastIdx (c : Char) : List Char → Option Nat
  | [] => none
  | x :: tl =>
    match rlastIdx c tl with
    | some i => some (i + 1)
    | none => if x = c then some 0 else none

def lbrace : Char := Char.ofNat 123

def rbrace : Char := Char.ofNat 125

/-! ### JSON values and a model of `json.loads`

Numbers are kept as their source lexeme: nothing in the verified properties
depends on numeric semantics, and Python floats are out of scope. -/

inductive Json where
  | null : Json
  | bool (b : Bool) : Json
  | num (lexeme : List Char) : Json
  | str (s : List Char) : Json
  | arr (elems : List Json) : Json
  | obj (members : List (List Char × Json)) : Json

/-- Whitespace skipped by the JSON grammar (`json.loads`). -/
def jsonWs (c : Char) : Bool := c = ' ' || c = '\t' || c = '\n' || c = '\r'

def skipWs (s : List Char) : List Char := s.dropWhile jsonWs

/-- Body of a JSON string after the opening quote.  `\u` escapes are not
modelled (none of the code's inputs use them); an unsupported escape makes
the parse fail, as a stricter-than-Python approximation. -/
def parseStringBody : Nat → List Char → Option (List Char × List Char)
  | 0, _ => none
  | _, [] => none
  | fuel + 1, c :: rest =>
    if c = '"' then some ([], rest)
    else if c = '\\' then
      match rest with
      | [] => none
      | e :: rest2 =>
        let esc : Option Char :=
          if e = '"' then some '"'
          else if e = '\\' then some '\\'
          else if e = '/' then some '/'
          else if e = 'n' then some '\n'
          else if e = 't' then some '\t'
          else if e = 'r' then some '\r'
          else if e = 'b' then some (Char.ofNat 8)
          else if e = 'f' then some (Char.ofNat 12)
          else none
        match esc with
        | none => none
        | some ch => (parseStringBody fuel rest2).map (fun p => (ch :: p.1, p.2))
    else if c.toNat < 32 then none
    else (parseStringBody fuel rest).map (fun p => (c :: p.1, p.2))

/-- Fractional part of a JSON number (empty when absent). -/
def parseFracPart : List Char → Option (List Char × List Char)
  | '.' :: tl =>
    let fd := tl.takeWhile Char.isDigit
    if fd.isEmpty then none else some ('.' :: fd, tl.dropWhile Char.isDigit)
  | s => some ([], s)

/-- Exponent part of a JSON number (empty when absent). -/
def parseExpPart : List Char → Option (List Char × List Char)
  | [] => some ([], [])
  | c :: tl =>
    if c = 'e' || c = 'E' then
      let sgn : List Char × List Char :=
        match tl with
        | '+' :: r => (['+'], r)
        | '-' :: r => (['-'], r)
        | _ => ([], tl)
      let ed := sgn.2.takeWhile Char.isDigit
      if ed.isEmpty then none
      else some (c :: sgn.1 ++ ed, sgn.2.dropWhile Char.isDigit)
    else some ([], c :: tl)

/-- Lexeme of a JSON number (sign, integer part with the leading-zero rule,
optional fraction and exponent). -/
def parseNumberLex (s : List Char) : Option (List Char × List Char) :=
  let neg : List Char × List Char :=
    match s with
    | '-' :: tl => (['-'], tl)
    | _ => ([], s)
  let intPart := neg.2.takeWhile Char.isDigit
  if intPart.isEmpty then none
  else if 1 < intPart.length && intPart.head? = some '0' then none
  else
    match parseFracPart (neg.2.dropWhile Char.isDigit) with
    | none => none
    | some (fr, r1) =>
      match parseExpPart r1 with
      | none => none
      | some (ex, r2) => some (neg.1 ++ intPart ++ fr ++ ex, r2)

mutual

/-- One JSON value (leading whitespace allowed), fuel-bounded. -/
def parseValue : Nat → List Char → Option (Json × List Char)
  | 0, _ => none
  | fuel + 1, s =>
    match skipWs s with
    | [] => none
    | c :: rest =>
      if c = '"' then
        (parseStringBody (rest.length + 1) rest).map (fun p => (Json.str p.1, p.2))
      else if c = lbrace then
        match skipWs rest with
        | d :: rest2 =>
          if d = rbrace then some (Json.obj [], rest2)
          else parseMembers fuel (skipWs rest) []
        | [] => none
      else if c = '[' then
        match skipWs rest with
        | ']' :: rest2 => some (Json.arr [], rest2)
        | _ => parseElems fuel (skipWs rest) []
      else if ('t' :: 'r' :: 'u' :: 'e' :: []).isPrefixOf (c :: rest) then
        some (Json.bool true, (c :: rest).drop 4)
      else if ('f' :: 'a' :: 'l' :: 's' :: 'e' :: []).isPrefixOf (c :: rest) then
        some (Json.bool false, (c :: rest).drop 5)
      else if ('n' :: 'u' :: 'l' :: 'l' :: []).isPrefixOf (c :: rest) then
        some (Json.null, (c :: rest).drop 4)
      else
        (parseNumberLex (c :: rest)).map (fun p => (Json.num p.1, p.2))

/-- Comma-separated array elements after `[` (non-empty case). -/
def parseElems : Nat → List Char → List Json → Option (Json × List Char)
  | 0, _, _ => none
  | fuel + 1, s, acc =>
    match parseValue fuel s with
    | none => none
    | some (j, rest) =>
      match skipWs rest with
      | ',' :: rest2 => parseElems fuel rest2 (j :: acc)
      | ']' :: rest2 => some (Json.arr (j :: acc).reverse, rest2)
      | _ => none

/-- Comma-separated object members after an opening brace (non-empty case). -/
def parseMembers : Nat → List Char → List (List Char × Json) →
    Option (Json × List Char)
  | 0, _, _ => none
  | fuel + 1, s, acc =>
    match skipWs s with
    | '"' :: rest =>
      match parseStringBody (rest.length + 1) rest with
      | none => none
      | some (key, r1) =>
        match skipWs r1 with
        | ':' :: r2 =>
          match parseValue fuel r2 with
          | none => none
          | some (j, r3) =>
            match skipWs r3 with
            | ',' :: r4 => parseMembers fuel r4 ((key, j) :: acc)
            | d :: r4 =>
              if d = rbrace then some (Json.obj ((key, j) :: acc).reverse, r4)
              else none
            | [] => none
        | _ => none
    | _ => none

end

/-- Model of Python's `json.loads`: one JSON document, with only whitespace
allowed after it. -/
def loads (s : List Char) : Option Json :=
  match parseValue (s.length + 2) s with
  | some (j, rest) => if (skipWs rest).isEmpty then some j else none
  | none => none

/-! ### `LLMProvider.parse_json` (strategies 1-3 of the repair protocol) -/

/-- Embedding of `LLMParseError(raw)`: the exception keeps a 200-character preview of the
raw response. -/
structure LLMParseErr where
  raw_response : List Char
deriving DecidableEq

def mkLLMParseErr (raw : List Char) : LLMParseErr := ⟨raw.take 200⟩

def FENCE_JSON : List Char := "```json".data

def FENCE : List Char := "```".data

/-- The markdown-fence stripping step of `parse_json`: content between a
(possibly `json`-tagged) fence pair, stripped; the input unchanged when no
well-formed fence pair is present. -/
def extract_fenced (content : List Char) : List Char :=
  match findSub FENCE_JSON content with
  | some i =>
    let start := i + 7
    match findSub FENCE (content.drop start) with
    | some e0 =>
      let e := start + e0
      if start < e then pyStrip ((content.drop start).take (e - start))
      else content
    | none => content
  | none =>
    match findSub FENCE content with
    | some i =>
      let start := i + 3
      match findSub FENCE (content.drop start) with
      | some e0 =>
        let e := start + e0
        if start < e then pyStrip ((content.drop start).take (e - start))
        else content
      | none => content
    | none => content

/-- The brace-slice step: from the first opening brace to the last closing
brace, inclusive, when both exist in that order. -/
def brace_slice (raw : List Char) : Option (List Char) :=
  match findSub [lbrace] raw, rlastIdx rbrace raw with
  | some s, some e => if s < e then some ((raw.drop s).take (e + 1 - s)) else none
  | _, _ => none

/-- Embedding of `LLMProvider.parse_json`: direct parse, then fence extraction, then
brace slice; `LLMParseError` when all three fail. -/
def parse_json (raw : List Char) : Except LLMParseErr Json :=
  match loads raw with
  | some j => .ok j
  | none =>
    match loads (extract_fenced raw) with
    | some j => .ok j
    | none =>
      match brace_slice raw with
      | some sl =>
        match loads sl with
        | some j => .ok j
        | none => .error (mkLLMParseErr raw)
      | none => .error (mkLLMParseErr raw)

/-! ### Constants (`opspilot/constants.py`) -/

def LLM_MAX_RETRIES : Nat := 3

def LLM_RETRY_DELAY : ℚ := 1

def LLM_RETRY_MULTIPLIER : ℚ := 2

def CIRCUIT_BREAKER_THRESHOLD : Nat := 5

def CIRCUIT_BREAKER_TIMEOUT : Int := 60

/-! ### `CircuitBreaker`

`datetime.now()` is modelled by an explicit `now : Int` argument (seconds);
`elapsed > timedelta(seconds=60)` becomes a strict integer comparison. -/

structure CircuitBreaker where
  failure_count : Nat := 0
  last_failure_time : Option Int := none
  is_open : Bool := false
deriving DecidableEq

def CircuitBreaker.record_failure (cb : CircuitBreaker) (now : Int) :
    CircuitBreaker :=
  let fc := cb.failure_count + 1
  { failure_count := fc
    last_failure_time := some now
    is_open := if CIRCUIT_BREAKER_THRESHOLD ≤ fc then true else cb.is_open }

def CircuitBreaker.record_success (_cb : CircuitBreaker) : CircuitBreaker :=
  { failure_count := 0, is_open := false, last_failure_time := none }

def CircuitBreaker.can_attempt (cb : CircuitBreaker) (now : Int) : Bool :=
  if !cb.is_open then true
  else
    match cb.last_failure_time with
    | some t => decide (now - t > CIRCUIT_BREAKER_TIMEOUT)
    | none => false

/-- A sequence of `record_failure` calls at the given times, with no
intervening `record_success`. -/
def CircuitBreaker.recordFailures (cb : CircuitBreaker) (times : List Int) :
    CircuitBreaker :=
  times.foldl CircuitBreaker.record_failure cb

/-! ### `ProviderStats` and the retry wrapper `call_with_retry` -/

structure ProviderStats where
  total_calls : Nat := 0
  successful_calls : Nat := 0
  failed_calls : Nat := 0
  total_latency_ms : ℚ := 0
  circuit_breaker : CircuitBreaker := {}

/-- Kind of the exception a provider attempt raised (`LLMTimeoutError`,
`LLMResponseError`, transport `LLMError`, anything else).  The retry loop's
classification never looks at the kind, only at the message text. -/
inductive ErrKind where
  | timeout : ErrKind
  | response : ErrKind
  | transport : ErrKind
  | other : ErrKind
deriving DecidableEq

/-- Result of one physical `provider.call(prompt)`: the returned text with
its latency, or the `str(e)` of the raised exception. -/
inductive AttemptRes where
  | ok (text : String) (elapsedMs : ℚ) : AttemptRes
  | err (kind : ErrKind) (msg : String) : AttemptRes

/-- The check `"rate limit" in str(e).lower() or "429" in str(e)`. -/
def isRateLimitText (msg : String) : Bool :=
  containsSub "rate limit".data (lowerChars msg.data) ||
    containsSub "429".data msg.data

/-- Exception raised (or text returned) by `call_with_retry`. -/
inductive RetryOutcome where
  | success (text : String) : RetryOutcome
  | rateLimited (provider : String) : RetryOutcome
  | exhausted (message details : String) : RetryOutcome
  | breakerOpen (message details : String) : RetryOutcome
deriving DecidableEq

structure RetryResult where
  outcome : RetryOutcome
  stats : ProviderStats
  attemptsMade : Nat
  sleeps : List ℚ
  breakerChecks : Nat

/-- Stats update on a successful attempt. -/
def successStats (st : ProviderStats) (elapsedMs : ℚ) : ProviderStats :=
  { st with
    total_calls := st.total_calls + 1
    successful_calls := st.successful_calls + 1
    total_latency_ms := st.total_latency_ms + elapsedMs
    circuit_breaker := st.circuit_breaker.record_success }

/-- Stats update on a failed attempt. -/
def failureStats (st : ProviderStats) (now : Int) : ProviderStats :=
  { st with
    total_calls := st.total_calls + 1
    failed_calls := st.failed_calls + 1
    circuit_breaker := st.circuit_breaker.record_failure now }

/-- The `for attempt in range(max_retries + 1)` loop of `call_with_retry`,
by recursion on the number of attempts still allowed.  Each physical call is
`behavior st.total_calls` (the oracle consumes one value per attempt since
`total_calls` grows by one on every attempt). -/
def retryFrom (name : String) (behavior : Nat → AttemptRes) (maxRetries : Nat)
    (now : Int) :
    Nat → ℚ → ProviderStats → String → Nat → List ℚ → RetryResult
  | 0, _, st, lastErr, made, sleeps =>
    { outcome := .exhausted
        (name ++ " failed after " ++ toString (maxRetries + 1) ++ " attempts")
        lastErr
      stats := st, attemptsMade := made, sleeps := sleeps, breakerChecks := 0 }
  | r + 1, delay, st, _lastErr, made, sleeps =>
    match behavior st.total_calls with
    | .ok text elapsedMs =>
      { outcome := .success text
        stats := successStats st elapsedMs
        attemptsMade := made + 1, sleeps := sleeps, breakerChecks := 0 }
    | .err _ msg =>
      let st1 := failureStats st now
      if isRateLimitText msg then
        { outcome := .rateLimited name
          stats := st1, attemptsMade := made + 1, sleeps := sleeps
          breakerChecks := 0 }
      else if 0 < r then
        retryFrom name behavior maxRetries now r (delay * LLM_RETRY_MULTIPLIER)
          st1 msg (made + 1) (sleeps ++ [delay])
      else
        { outcome := .exhausted
            (name ++ " failed after " ++ toString (maxRetries + 1) ++ " attempts")
            msg
          stats := st1, attemptsMade := made + 1, sleeps := sleeps
          breakerChecks := 0 }

/-- Embedding of `LLMProvider.call_with_retry`: one breaker-gate check up front, then the
attempt loop. -/
def call_with_retry (name : String) (behavior : Nat → AttemptRes)
    (maxRetries : Nat) (initialDelay : ℚ) (st : ProviderStats) (now : Int) :
    RetryResult :=
  if !(st.circuit_breaker.can_attempt now) then
    { outcome := .breakerOpen (name ++ " circuit breaker is open")
        "Too many recent failures, waiting for cooldown"
      stats := st, attemptsMade := 0, sleeps := [], breakerChecks := 1 }
  else
    let r := retryFrom name behavior maxRetries now (maxRetries + 1)
      initialDelay st "None" 0 []
    { r with breakerChecks := r.breakerChecks + 1 }

/-! ### `LLMRouter` -/

/-- One provider as the router sees it: its class name, the result of
`is_available()` (constant during one `call`), the oracle for its physical
calls, and its mutable stats record. -/
structure Provider where
  name : String
  available : Bool
  behavior : Nat → AttemptRes
  stats : ProviderStats

/-- Router state: the ordered provider list and `last_successful_provider`
(as an index into the list, standing for the Python object reference). -/
structure RouterState where
  providers : List Provider
  last_successful_provider : Option Nat

/-- The `str(e)` text of the exception standing behind a non-success retry outcome
(`OpsPilotError.__str__` is `"message: details"`). -/
def errText : RetryOutcome → String
  | .success t => t
  | .rateLimited provider => "Rate limited by " ++ provider
  | .exhausted m d => m ++ ": " ++ d
  | .breakerOpen m d => m ++ ": " ++ d

/-- The `for provider in self.providers` loop of `LLMRouter.call`.  Returns
the providers with their stats updated, the accumulated error lines, and on
success the returned text with the index of the provider that produced it. -/
def routerLoop (now : Int) :
    List Provider → Nat → List String →
      List Provider × List String × Option (String × Nat)
  | [], _, errs => ([], errs, none)
  | p :: rest, i, errs =>
    if !p.available then
      let r := routerLoop now rest (i + 1) (errs ++ [p.name ++ ": Not available"])
      (p :: r.1, r.2)
    else if !(p.stats.circuit_breaker.can_attempt now) then
      let r := routerLoop now rest (i + 1)
        (errs ++ [p.name ++ ": Circuit breaker open"])
      (p :: r.1, r.2)
    else
      let rr := call_with_retry p.name p.behavior LLM_MAX_RETRIES
        LLM_RETRY_DELAY p.stats now
      let p' : Provider := { p with stats := rr.stats }
      match rr.outcome with
      | .success t => (p' :: rest, errs, some (t, i))
      | .rateLimited _ =>
        let r := routerLoop now rest (i + 1) (errs ++ [p.name ++ ": Rate limited"])
        (p' :: r.1, r.2)
      | o =>
        let r := routerLoop now rest (i + 1) (errs ++ [p.name ++ ": " ++ errText o])
        (p' :: r.1, r.2)

/-- Step 1 of `LLMRouter.call`: the sticky (last-successful) provider is
tried first when its breaker permits.  Returns the error lines collected so
far, the updated provider list, and the text when the sticky call
succeeded. -/
def stickyAttempt (rs : RouterState) (now : Int) :
    List String × List Provider × Option String :=
  match rs.last_successful_provider with
  | none => ([], rs.providers, none)
  | some i =>
    match rs.providers.get? i with
    | none => ([], rs.providers, none)
    | some p =>
      if p.stats.circuit_breaker.can_attempt now then
        let rr := call_with_retry p.name p.behavior LLM_MAX_RETRIES
          LLM_RETRY_DELAY p.stats now
        let provs := rs.providers.set i { p with stats := rr.stats }
        match rr.outcome with
        | .success t => ([], provs, some t)
        | o => ([p.name ++ ": " ++ errText o], provs, none)
      else ([], rs.providers, none)

/-- The one aggregated `LLMError` raised when every provider was skipped or
failed. -/
structure AggregatedError where
  message : String
  details : String
deriving DecidableEq

def SETUP_INSTRUCTIONS : String :=
  "\n\nSetup instructions (all FREE/open-source):\n" ++
  "1. Ollama (local): Install from https://ollama.ai/ → ollama pull llama3\n" ++
  "2. Google Gemini (free tier): Get key at https://aistudio.google.com/ → export GOOGLE_API_KEY=...\n" ++
  "3. OpenRouter (free models): Get key at https://openrouter.ai/ → export OPENROUTER_API_KEY=...\n" ++
  "4. HuggingFace (free tier): Get key at https://huggingface.co/settings/tokens → export HUGGINGFACE_API_KEY=..."

def aggregatedError (errs : List String) : AggregatedError :=
  { message := "All LLM providers failed"
    details := String.intercalate "\n" errs ++ SETUP_INSTRUCTIONS }

structure RouterCallResult where
  outcome : Except AggregatedError String
  errors : List String
  state : RouterState

/-- Embedding of `LLMRouter.call`: sticky round, then the full provider loop, then the
single aggregated error. -/
def routerCall (rs : RouterState) (now : Int) : RouterCallResult :=
  match stickyAttempt rs now with
  | (errs0, provs0, stickyRes) =>
    match stickyRes with
    | some t =>
      { outcome := .ok t, errors := errs0
        state := { providers := provs0
                   last_successful_provider := rs.last_successful_provider } }
    | none =>
      match routerLoop now provs0 0 errs0 with
      | (provs1, errs1, some (t, i)) =>
        { outcome := .ok t, errors := errs1
          state := { providers := provs1, last_successful_provider := some i } }
      | (provs1, errs1, none) =>
        { outcome := .error (aggregatedError errs1), errors := errs1
          state := { providers := provs1
                     last_successful_provider := rs.last_successful_provider } }

/-! ### `LLMRouter.safe_json_parse`

The embedded `Router.call` made for the correction round-trip is abstracted
as an oracle `router : List Char → Option (List Char)` (`none` standing for
a raised exception), so that the number of router invocations and the prompt
they receive are explicit. -/

def CORRECTION_PROMPT_HEADER : List Char :=
  ("\nThe following output was NOT valid JSON.\n\nReturn ONLY valid JSON.\n" ++
    "No explanation.\nNo markdown.\n\nINVALID OUTPUT:\n").data

/-- The correction prompt embeds the invalid raw output. -/
def correction_prompt (raw : List Char) : List Char :=
  CORRECTION_PROMPT_HEADER ++ raw ++ ['\n']

structure SafeParseResult where
  result : Except LLMParseErr Json
  routerCalls : Nat

/-- Embedding of `LLMRouter.safe_json_parse`: local strategies 1-3, then at most one
correction call through the router, then strategies 1-3 on that single
response, then terminal `LLMParseError(raw)`. -/
def safe_json_parse (router : List Char → Option (List Char))
    (raw : List Char) : SafeParseResult :=
  match parse_json raw with
  | .ok j => { result := .ok j, routerCalls := 0 }
  | .error _ =>
    match router (correction_prompt raw) with
    | none => { result := .error (mkLLMParseErr raw), routerCalls := 1 }
    | some corrected =>
      match parse_json corrected with
      | .ok j => { result := .ok j, routerCalls := 1 }
      | .error _ => { result := .error (mkLLMParseErr raw), routerCalls := 1 }

/-! ### Accessors and concrete fixtures used by the verification -/

/-- Message text of an attempt result (for a failure, the `str(e)` the retry
loop keeps as `last_error`). -/
def msgOf : AttemptRes → String
  | .ok t _ => t
  | .err _ m => m

/-- The attempt failed and its message is not classified as a rate limit. -/
def failsNonRL : AttemptRes → Bool
  | .ok _ _ => false
  | .err _ msg => !isRateLimitText msg

/-- Spec example input for the fenced-block strategy. -/
def EXAMPLE_FENCED : List Char :=
  "Here is the result:\n```json\n\x7b\"key\": \"value\"\x7d\n```\nDone.".data

/-- Spec example input for the brace-slice strategy. -/
def EXAMPLE_NOISE : List Char :=
  "noise \x7b\"key\":\"value\"\x7d trailing text".data

/-- Scenario provider A: unavailable. -/
def providerA : Provider :=
  { name := "A", available := false
    behavior := fun _ => .err .transport "unreachable", stats := {} }

/-- Scenario provider B: available but with an open breaker whose last
failure just happened. -/
def providerB : Provider :=
  { name := "B", available := true
    behavior := fun _ => .err .transport "unreachable"
    stats := { circuit_breaker :=
      { failure_count := 5, last_failure_time := some 0, is_open := true } } }

/-- Scenario provider C: available and succeeding on the first attempt. -/
def providerC : Provider :=
  { name := "C", available := true
    behavior := fun _ => .ok "from-C" 5, stats := {} }

/-- The spec's `[A, B, C]` router with no sticky provider. -/
def routerABC : RouterState :=
  { providers := [providerA, providerB, providerC]
    last_successful_provider := none }

/-- A provider that is available, has a fresh breaker, and fails every
attempt with a non-rate-limit error. -/
def providerBoom : Provider :=
  { name := "OllamaProvider", available := true
    behavior := fun _ => .err .transport "boom", stats := {} }

/-- A router whose sticky pointer is the always-failing provider. -/
def routerStickyBoom : RouterState :=
  { providers := [providerBoom], last_successful_provider := some 0 }

/-- A router whose sticky pointer is the immediately-succeeding provider. -/
def routerStickyC : RouterState :=
  { providers := [providerC], last_successful_provider := some 0 }

/-- A router with a single unavailable provider and no sticky pointer. -/
def routerDown : RouterState :=
  { providers := [providerA], last_successful_provider := none }

/-! ### Helper lemmas -/

theorem recordFailures_count (cb : CircuitBreaker) (ts : List Int) :
    (cb.recordFailures ts).failure_count = cb.failure_count + ts.length := by
  induction ts generalizing cb with
  | nil => simp [CircuitBreaker.recordFailures]
  | cons h tl ih =>
    show (CircuitBreaker.recordFailures _ tl).failure_count = _
    rw [ih]
    simp [CircuitBreaker.record_failure]
    omega

theorem recordFailures_concat (cb : CircuitBreaker) (ts : List Int) (t : Int) :
    cb.recordFailures (ts ++ [t]) = (cb.recordFailures ts).record_failure t := by
  simp [CircuitBreaker.recordFailures, List.foldl_concat]

theorem retryFrom_invariant (name : String) (behavior : Nat → AttemptRes)
    (maxR : Nat) (now : Int) (d0 : ℚ) :
    ∀ rem : Nat, 1 ≤ rem → ∀ (n : Nat) (st : ProviderStats) (lastErr : String)
      (made : Nat) (sleeps : List ℚ),
      sleeps = (List.range n).map (fun k => d0 * LLM_RETRY_MULTIPLIER ^ k) →
      (retryFrom name behavior maxR now rem (d0 * LLM_RETRY_MULTIPLIER ^ n)
          st lastErr made sleeps).breakerChecks = 0 ∧
      (retryFrom name behavior maxR now rem (d0 * LLM_RETRY_MULTIPLIER ^ n)
          st lastErr made sleeps).attemptsMade ≤ made + rem ∧
      (retryFrom name behavior maxR now rem (d0 * LLM_RETRY_MULTIPLIER ^ n)
          st lastErr made sleeps).sleeps =
        (List.range (retryFrom name behavior maxR now rem
            (d0 * LLM_RETRY_MULTIPLIER ^ n) st lastErr made sleeps).sleeps.length).map
          (fun k => d0 * LLM_RETRY_MULTIPLIER ^ k) ∧
      (retryFrom name behavior maxR now rem (d0 * LLM_RETRY_MULTIPLIER ^ n)
          st lastErr made sleeps).sleeps.length + 1 ≤ n + rem := by
  intro rem
  induction rem with
  | zero => omega
  | succ r ih =>
    intro _ n st lastErr made sleeps hsleeps
    have hlen : sleeps.length = n := by rw [hsleeps]; simp
    cases hb : behavior st.total_calls with
    | ok text elapsedMs =>
      refine ⟨?_, ?_, ?_, ?_⟩ <;> simp [retryFrom, hb] <;> rw [hlen] <;>
        first
          | omega
          | exact hsleeps
    | err kind msg =>
      by_cases hrl : isRateLimitText msg
      · refine ⟨?_, ?_, ?_, ?_⟩ <;> simp [retryFrom, hb, hrl] <;> rw [hlen] <;>
          first
            | omega
            | exact hsleeps
      · by_cases hr : 0 < r
        · have hdelay : d0 * LLM_RETRY_MULTIPLIER ^ n * LLM_RETRY_MULTIPLIER =
              d0 * LLM_RETRY_MULTIPLIER ^ (n + 1) := by ring
          have hsleeps2 : sleeps ++ [d0 * LLM_RETRY_MULTIPLIER ^ n] =
              (List.range (n + 1)).map
                (fun k => d0 * LLM_RETRY_MULTIPLIER ^ k) := by
            rw [hsleeps, List.range_succ]
            simp
          have step : retryFrom name behavior maxR now (r + 1)
              (d0 * LLM_RETRY_MULTIPLIER ^ n) st lastErr made sleeps =
              retryFrom name behavior maxR now r
                (d0 * LLM_RETRY_MULTIPLIER ^ (n + 1)) (failureStats st now) msg
                (made + 1) ((List.range (n + 1)).map
                  (fun k => d0 * LLM_RETRY_MULTIPLIER ^ k)) := by
            rw [← hsleeps2, ← hdelay]
            simp [retryFrom, hb, hrl, hr]
          rw [step]
          have := ih hr (n + 1) (failureStats st now) msg (made + 1)
            ((List.range (n + 1)).map (fun k => d0 * LLM_RETRY_MULTIPLIER ^ k))
            rfl
          exact ⟨this.1, by omega, this.2.2.1, by omega⟩
        · refine ⟨?_, ?_, ?_, ?_⟩ <;> simp [retryFrom, hb, hrl, hr] <;>
            rw [hlen] <;>
            first
              | omega
              | exact hsleeps

theorem retry_rateLimit_core (name : String) (behavior : Nat → AttemptRes)
    (maxR : Nat) (d0 : ℚ) (st : ProviderStats) (now : Int) (kind : ErrKind)
    (msg : String)
    (hgate : st.circuit_breaker.can_attempt now = true)
    (hb : behavior st.total_calls = .err kind msg)
    (hrl : isRateLimitText msg = true) :
    (call_with_retry name behavior maxR d0 st now).outcome =
      .rateLimited name ∧
    (call_with_retry name behavior maxR d0 st now).attemptsMade = 1 ∧
    (call_with_retry name behavior maxR d0 st now).stats.failed_calls =
      st.failed_calls + 1 := by
  simp [call_with_retry, hgate, retryFrom, hb, hrl, failureStats]

theorem retryFrom_allFail (name : String) (behavior : Nat → AttemptRes)
    (maxR : Nat) (now : Int)
    (hfail : ∀ k, failsNonRL (behavior k) = true) :
    ∀ rem : Nat, 1 ≤ rem → ∀ (d : ℚ) (st : ProviderStats) (lastErr : String)
      (made : Nat) (sleeps : List ℚ),
      (retryFrom name behavior maxR now rem d st lastErr made sleeps).outcome =
        .exhausted
          (name ++ " failed after " ++ toString (maxR + 1) ++ " attempts")
          (msgOf (behavior (st.total_calls + (rem - 1)))) ∧
      (retryFrom name behavior maxR now rem d st lastErr made
          sleeps).stats.failed_calls = st.failed_calls + rem ∧
      (retryFrom name behavior maxR now rem d st lastErr made
          sleeps).attemptsMade = made + rem := by
  intro rem
  induction rem with
  | zero => omega
  | succ r ih =>
    intro _ d st lastErr made sleeps
    have hk := hfail st.total_calls
    cases hb : behavior st.total_calls with
    | ok text elapsedMs => rw [hb] at hk; simp [failsNonRL] at hk
    | err kind msg =>
      rw [hb] at hk
      simp [failsNonRL] at hk
      by_cases hr : 0 < r
      · have step : retryFrom name behavior maxR now (r + 1) d st lastErr
            made sleeps =
            retryFrom name behavior maxR now r (d * LLM_RETRY_MULTIPLIER)
              (failureStats st now) msg (made + 1) (sleeps ++ [d]) := by
          simp [retryFrom, hb, hk, hr]
        rw [step]
        have := ih hr (d * LLM_RETRY_MULTIPLIER) (failureStats st now) msg
          (made + 1) (sleeps ++ [d])
        have hidx : (failureStats st now).total_calls + (r - 1) =
            st.total_calls + (r + 1 - 1) := by
          simp [failureStats]
          omega
        rw [hidx] at this
        have hfc : (failureStats st now).failed_calls = st.failed_calls + 1 := by
          simp [failureStats]
        rw [hfc] at this
        exact ⟨this.1, by omega, by omega⟩
      · have hr0 : r = 0 := by omega
        subst hr0
        simp [retryFrom, hb, hk, failureStats, msgOf]

/-! ### Claim theorems -/

/-- C3: after exactly `CIRCUIT_BREAKER_THRESHOLD` consecutive
`record_failure` calls with no intervening `record_success`, from any
starting state, `can_attempt` is false at the moment of the last failure and
becomes true exactly when the elapsed time since that failure exceeds the
cooldown; while the breaker is not open `can_attempt` is unconditionally
true. -/
theorem breaker_threshold_and_cooldown (cb : CircuitBreaker) (ts : List Int)
    (t : Int) (hlen : (ts ++ [t]).length = CIRCUIT_BREAKER_THRESHOLD) :
    (cb.recordFailures (ts ++ [t])).is_open = true ∧
    (cb.recordFailures (ts ++ [t])).can_attempt t = false ∧
    (∀ now : Int, (cb.recordFailures (ts ++ [t])).can_attempt now =
      decide (now - t > CIRCUIT_BREAKER_TIMEOUT)) ∧
    (∀ cb2 : CircuitBreaker, ∀ now : Int, cb2.is_open = false →
      cb2.can_attempt now = true) := by
  have hcount : (cb.recordFailures ts).failure_count + 1 ≥
      CIRCUIT_BREAKER_THRESHOLD := by
    rw [recordFailures_count]
    simp [CIRCUIT_BREAKER_THRESHOLD] at hlen ⊢
    omega
  have hopen : (cb.recordFailures (ts ++ [t])).is_open = true := by
    rw [recordFailures_concat]
    simp [CircuitBreaker.record_failure]
    exact Or.inl hcount
  have hlast : (cb.recordFailures (ts ++ [t])).last_failure_time = some t := by
    rw [recordFailures_concat]
    simp [CircuitBreaker.record_failure]
  have hcan : ∀ now : Int, (cb.recordFailures (ts ++ [t])).can_attempt now =
      decide (now - t > CIRCUIT_BREAKER_TIMEOUT) := by
    intro now
    simp [CircuitBreaker.can_attempt, hopen, hlast]
  refine ⟨hopen, ?_, hcan, ?_⟩
  · rw [hcan t]
    simp [CIRCUIT_BREAKER_TIMEOUT]
  · intro cb2 now h
    simp [CircuitBreaker.can_attempt, h]

/-- Witness for C3: a fresh breaker, five failures at times 0,1,2,3,4. -/
theorem breaker_threshold_and_cooldown_witness :
    (CircuitBreaker.recordFailures {} ([0, 1, 2, 3] ++ [4])).is_open = true ∧
    (CircuitBreaker.recordFailures {} ([0, 1, 2, 3] ++ [4])).can_attempt 4 =
      false ∧
    (∀ now : Int,
      (CircuitBreaker.recordFailures {} ([0, 1, 2, 3] ++ [4])).can_attempt now =
        decide (now - 4 > CIRCUIT_BREAKER_TIMEOUT)) ∧
    (∀ cb2 : CircuitBreaker, ∀ now : Int, cb2.is_open = false →
      cb2.can_attempt now = true) :=
  breaker_threshold_and_cooldown {} [0, 1, 2, 3] 4 (by decide)

/-- C8: `parse_json` applies its strategies in order, stopping at the first
success — direct parse, then fenced-block extraction, then the
first-`{`-to-last-`}` slice — and raises a parse error only when all three
fail; the spec's two concrete examples both yield `{"key": "value"}`. -/
theorem parse_json_strategy_order :
    (∀ raw j, loads raw = some j → parse_json raw = .ok j) ∧
    (∀ raw j, loads raw = none → loads (extract_fenced raw) = some j →
      parse_json raw = .ok j) ∧
    (∀ raw sl j, loads raw = none → loads (extract_fenced raw) = none →
      brace_slice raw = some sl → loads sl = some j →
      parse_json raw = .ok j) ∧
    (∀ raw, loads raw = none → loads (extract_fenced raw) = none →
      (∀ sl, brace_slice raw = some sl → loads sl = none) →
      parse_json raw = .error (mkLLMParseErr raw)) ∧
    parse_json EXAMPLE_FENCED =
      .ok (Json.obj [("key".data, Json.str "value".data)]) ∧
    parse_json EXAMPLE_NOISE =
      .ok (Json.obj [("key".data, Json.str "value".data)]) := by
  refine ⟨?_, ?_, ?_, ?_, by rfl, by rfl⟩
  · intro raw j h
    simp [parse_json, h]
  · intro raw j h1 h2
    simp [parse_json, h1, h2]
  · intro raw sl j h1 h2 h3 h4
    simp [parse_json, h1, h2, h3, h4]
  · intro raw h1 h2 h3
    cases hbs : brace_slice raw with
    | none => simp [parse_json, h1, h2, hbs]
    | some sl => simp [parse_json, h1, h2, hbs, h3 sl hbs]

/-- Witness for C8: the direct-parse strategy on `{}`. -/
theorem parse_json_strategy_order_witness :
    parse_json "\x7b\x7d".data = .ok (Json.obj []) :=
  parse_json_strategy_order.1 "\x7b\x7d".data (Json.obj []) (by rfl)

/-- C4: the repair protocol is bounded — no correction call when a local
strategy succeeds, exactly one correction call (on the correction prompt,
which embeds the raw output) when they all fail, strategies 1-3 applied to
that single response, and a terminal `LLMParseError` when those fail too;
the router is consulted on nothing but the one correction prompt. -/
theorem safe_json_parse_bounded (router : List Char → Option (List Char))
    (raw : List Char) :
    (safe_json_parse router raw).routerCalls ≤ 1 ∧
    (∀ j, parse_json raw = .ok j →
      safe_json_parse router raw = ⟨.ok j, 0⟩) ∧
    (∀ e, parse_json raw = .error e →
      (safe_json_parse router raw).routerCalls = 1 ∧
      (∀ router2, router2 (correction_prompt raw) = router (correction_prompt raw) →
        safe_json_parse router2 raw = safe_json_parse router raw) ∧
      (router (correction_prompt raw) = none →
        (safe_json_parse router raw).result = .error (mkLLMParseErr raw)) ∧
      (∀ corrected e2, router (correction_prompt raw) = some corrected →
        parse_json corrected = .error e2 →
        (safe_json_parse router raw).result = .error (mkLLMParseErr raw))) ∧
    correction_prompt raw = CORRECTION_PROMPT_HEADER ++ raw ++ ['\n'] := by
  refine ⟨?_, ?_, ?_, rfl⟩
  · cases h : parse_json raw with
    | ok j => simp [safe_json_parse, h]
    | error e =>
      cases hr : router (correction_prompt raw) with
      | none => simp [safe_json_parse, h, hr]
      | some corrected =>
        cases hc : parse_json corrected with
        | ok j => simp [safe_json_parse, h, hr, hc]
        | error e2 => simp [safe_json_parse, h, hr, hc]
  · intro j h
    simp [safe_json_parse, h]
  · intro e h
    refine ⟨?_, ?_, ?_, ?_⟩
    · cases hr : router (correction_prompt raw) with
      | none => simp [safe_json_parse, h, hr]
      | some corrected =>
        cases hc : parse_json corrected with
        | ok j => simp [safe_json_parse, h, hr, hc]
        | error e2 => simp [safe_json_parse, h, hr, hc]
    · intro router2 h2
      simp [safe_json_parse, h, h2]
    · intro hr
      simp [safe_json_parse, h, hr]
    · intro corrected e2 hr hc
      simp [safe_json_parse, h, hr, hc]

/-- Witness for C4: a raw output no strategy can parse, with a correction
response that also fails, makes exactly one router call. -/
theorem safe_json_parse_bounded_witness :
    (safe_json_parse (fun _ => some "still not JSON".data)
      "not json at all".data).routerCalls = 1 :=
  ((safe_json_parse_bounded (fun _ => some "still not JSON".data)
      "not json at all".data).2.2.1
    (mkLLMParseErr "not json at all".data) (by rfl)).1

/-- C5: the retry wrapper makes at most `max_retries + 1` attempts, sleeps
after every failed non-final attempt for delays that start at the initial
delay and are multiplied by the backoff factor after each failure, and
checks the breaker gate exactly once at the start of the call sequence
(never between retries); the configured defaults are 3 retries, 1 s initial
delay and factor 2. -/
theorem retryFrom_allFail_sleeps (name : String) (behavior : Nat → AttemptRes)
    (maxR : Nat) (now : Int)
    (hfail : ∀ k, failsNonRL (behavior k) = true) :
    ∀ rem : Nat, 1 ≤ rem → ∀ (d : ℚ) (st : ProviderStats) (lastErr : String)
      (made : Nat) (sleeps : List ℚ),
      (retryFrom name behavior maxR now rem d st lastErr made
          sleeps).sleeps.length = sleeps.length + (rem - 1) := by
  intro rem
  induction rem with
  | zero => omega
  | succ r ih =>
    intro _ d st lastErr made sleeps
    have hk := hfail st.total_calls
    cases hb : behavior st.total_calls with
    | ok text elapsedMs => rw [hb] at hk; simp [failsNonRL] at hk
    | err kind msg =>
      rw [hb] at hk
      simp [failsNonRL] at hk
      by_cases hr : 0 < r
      · have step : retryFrom name behavior maxR now (r + 1) d st lastErr
            made sleeps =
            retryFrom name behavior maxR now r (d * LLM_RETRY_MULTIPLIER)
              (failureStats st now) msg (made + 1) (sleeps ++ [d]) := by
          simp [retryFrom, hb, hk, hr]
        rw [step, ih hr]
        simp
        omega
      · have hr0 : r = 0 := by omega
        subst hr0
        simp [retryFrom, hb, hk]

theorem retry_budget_backoff_single_gate (name : String)
    (behavior : Nat → AttemptRes) (maxR : Nat) (d0 : ℚ) (st : ProviderStats)
    (now : Int) :
    (call_with_retry name behavior maxR d0 st now).attemptsMade ≤ maxR + 1 ∧
    (call_with_retry name behavior maxR d0 st now).breakerChecks = 1 ∧
    (call_with_retry name behavior maxR d0 st now).sleeps =
      (List.range (call_with_retry name behavior maxR d0 st
          now).sleeps.length).map (fun k => d0 * LLM_RETRY_MULTIPLIER ^ k) ∧
    (call_with_retry name behavior maxR d0 st now).sleeps.length ≤ maxR ∧
    (st.circuit_breaker.can_attempt now = true →
      (∀ k, failsNonRL (behavior k) = true) →
      (call_with_retry name behavior maxR d0 st now).sleeps.length = maxR) ∧
    LLM_MAX_RETRIES = 3 ∧ LLM_RETRY_DELAY = 1 ∧ LLM_RETRY_MULTIPLIER = 2 := by
  by_cases hgate : st.circuit_breaker.can_attempt now
  · have hd0 : d0 = d0 * LLM_RETRY_MULTIPLIER ^ 0 := by ring
    have hinv := retryFrom_invariant name behavior maxR now d0 (maxR + 1)
      (by omega) 0 st "None" 0 [] (by simp)
    rw [← hd0] at hinv
    constructor
    · simpa [call_with_retry, hgate] using hinv.2.1
    constructor
    · simp [call_with_retry, hgate, hinv.1]
    constructor
    · simpa [call_with_retry, hgate] using hinv.2.2.1
    refine ⟨?_, ?_, rfl, rfl, rfl⟩
    · have := hinv.2.2.2
      simp [call_with_retry, hgate]
      omega
    · intro _ hfail
      have := retryFrom_allFail_sleeps name behavior maxR now hfail (maxR + 1)
        (by omega) d0 st "None" 0 []
      simp [call_with_retry, hgate]
      simp at this
      omega
  · simp only [Bool.not_eq_true] at hgate
    simp [call_with_retry, hgate]
    exact ⟨rfl, rfl, rfl⟩

/-- Witness for C5: an always-failing provider with default settings makes
four attempts, one breaker check, and three backoff sleeps. -/
theorem retry_budget_backoff_witness :
    (call_with_retry "OllamaProvider" (fun _ => .err .transport "no connection")
        3 1 {} 0).attemptsMade ≤ 3 + 1 ∧
    (call_with_retry "OllamaProvider" (fun _ => .err .transport "no connection")
        3 1 {} 0).breakerChecks = 1 ∧
    (call_with_retry "OllamaProvider" (fun _ => .err .transport "no connection")
        3 1 {} 0).sleeps.length = 3 :=
  ⟨(retry_budget_backoff_single_gate "OllamaProvider"
      (fun _ => .err .transport "no connection") 3 1 {} 0).1,
    (retry_budget_backoff_single_gate "OllamaProvider"
      (fun _ => .err .transport "no connection") 3 1 {} 0).2.1,
    (retry_budget_backoff_single_gate "OllamaProvider"
      (fun _ => .err .transport "no connection") 3 1 {} 0).2.2.2.2.1
      (by rfl) (fun _ => by rfl)⟩

/-- C6: a rate-limited attempt is terminal for that provider — exactly one
attempt, no retries consumed — and `Router.call` then records
`<name>: Rate limited` in its error list and proceeds directly to the next
provider in order. -/
theorem rate_limit_one_attempt_then_next_provider :
    (∀ (name : String) (behavior : Nat → AttemptRes) (maxR : Nat) (d0 : ℚ)
      (st : ProviderStats) (now : Int) (kind : ErrKind) (msg : String),
      st.circuit_breaker.can_attempt now = true →
      behavior st.total_calls = .err kind msg →
      isRateLimitText msg = true →
      (call_with_retry name behavior maxR d0 st now).outcome =
        .rateLimited name ∧
      (call_with_retry name behavior maxR d0 st now).attemptsMade = 1) ∧
    (∀ (now : Int) (p : Provider) (rest : List Provider) (i : Nat)
      (errs : List String),
      p.available = true →
      p.stats.circuit_breaker.can_attempt now = true →
      (call_with_retry p.name p.behavior LLM_MAX_RETRIES LLM_RETRY_DELAY
          p.stats now).outcome = .rateLimited p.name →
      routerLoop now (p :: rest) i errs =
        ({ p with stats := (call_with_retry p.name p.behavior LLM_MAX_RETRIES
              LLM_RETRY_DELAY p.stats now).stats } ::
            (routerLoop now rest (i + 1)
              (errs ++ [p.name ++ ": Rate limited"])).1,
          (routerLoop now rest (i + 1)
            (errs ++ [p.name ++ ": Rate limited"])).2)) := by
  constructor
  · intro name behavior maxR d0 st now kind msg hgate hb hrl
    have := retry_rateLimit_core name behavior maxR d0 st now kind msg hgate
      hb hrl
    exact ⟨this.1, this.2.1⟩
  · intro now p rest i errs hav hcan hout
    simp [routerLoop, hav, hcan, hout]

/-- Witness for C6: a first attempt failing with an HTTP 429 message makes
exactly one attempt and yields the rate-limited outcome. -/
theorem rate_limit_one_attempt_witness :
    (call_with_retry "GeminiProvider"
        (fun _ => .err .response "HTTP 429 Too Many Requests")
        LLM_MAX_RETRIES LLM_RETRY_DELAY {} 0).outcome =
      .rateLimited "GeminiProvider" ∧
    (call_with_retry "GeminiProvider"
        (fun _ => .err .response "HTTP 429 Too Many Requests")
        LLM_MAX_RETRIES LLM_RETRY_DELAY {} 0).attemptsMade = 1 :=
  rate_limit_one_attempt_then_next_provider.1 "GeminiProvider"
    (fun _ => .err .response "HTTP 429 Too Many Requests")
    LLM_MAX_RETRIES LLM_RETRY_DELAY {} 0 .response "HTTP 429 Too Many Requests"
    (by rfl) (by rfl) (by rfl)

/-- C7 counterexample: with every attempt failing (none rate-limited) and
default settings, the exhausted sequence runs the stats failure path four
times — once per attempt — not once, refuting the claim at this input. -/
theorem stats_failure_once_counterexample :
    (call_with_retry "OllamaProvider" (fun _ => .err .transport "boom")
        LLM_MAX_RETRIES LLM_RETRY_DELAY {} 0).stats.failed_calls = 4 ∧
    ¬ ((call_with_retry "OllamaProvider" (fun _ => .err .transport "boom")
        LLM_MAX_RETRIES LLM_RETRY_DELAY {} 0).stats.failed_calls = 1) := by
  exact ⟨by rfl, by decide⟩

theorem retryFrom_success_at (name : String) (behavior : Nat → AttemptRes)
    (maxR : Nat) (now : Int) :
    ∀ (k rem : Nat), k < rem →
      ∀ (d : ℚ) (st : ProviderStats) (lastErr : String) (made : Nat)
        (sleeps : List ℚ) (text : String) (elapsedMs : ℚ),
      (∀ j, j < k → failsNonRL (behavior (st.total_calls + j)) = true) →
      behavior (st.total_calls + k) = .ok text elapsedMs →
      (retryFrom name behavior maxR now rem d st lastErr made sleeps).outcome =
        .success text ∧
      (retryFrom name behavior maxR now rem d st lastErr made
          sleeps).attemptsMade = made + (k + 1) ∧
      (retryFrom name behavior maxR now rem d st lastErr made
          sleeps).stats.successful_calls = st.successful_calls + 1 ∧
      (retryFrom name behavior maxR now rem d st lastErr made
          sleeps).stats.failed_calls = st.failed_calls + k := by
  intro k
  induction k with
  | zero =>
    intro rem hrem d st lastErr made sleeps text elapsedMs _ hok
    simp only [Nat.add_zero] at hok
    match rem, hrem with
    | r + 1, _ => simp [retryFrom, hok, successStats]
  | succ n ih =>
    intro rem hrem d st lastErr made sleeps text elapsedMs hfails hok
    match rem, hrem with
    | r + 1, hrem =>
      have h0 := hfails 0 (by omega)
      simp only [Nat.add_zero] at h0
      cases hb : behavior st.total_calls with
      | ok t e => rw [hb] at h0; simp [failsNonRL] at h0
      | err kind msg =>
        rw [hb] at h0
        simp [failsNonRL] at h0
        have hr : 0 < r := by omega
        have step : retryFrom name behavior maxR now (r + 1) d st lastErr
            made sleeps =
            retryFrom name behavior maxR now r (d * LLM_RETRY_MULTIPLIER)
              (failureStats st now) msg (made + 1) (sleeps ++ [d]) := by
          simp [retryFrom, hb, h0, hr]
        have htc : (failureStats st now).total_calls = st.total_calls + 1 := by
          simp [failureStats]
        have hfails2 : ∀ j, j < n →
            failsNonRL (behavior ((failureStats st now).total_calls + j)) =
              true := by
          intro j hj
          rw [htc]
          have heq : st.total_calls + 1 + j = st.total_calls + (j + 1) := by
            omega
          rw [heq]
          exact hfails (j + 1) (by omega)
        have hok2 : behavior ((failureStats st now).total_calls + n) =
            .ok text elapsedMs := by
          rw [htc]
          have heq : st.total_calls + 1 + n = st.total_calls + (n + 1) := by
            omega
          rw [heq]
          exact hok
        have := ih r (by omega) (d * LLM_RETRY_MULTIPLIER) (failureStats st now)
          msg (made + 1) (sleeps ++ [d]) text elapsedMs hfails2 hok2
        rw [step]
        refine ⟨this.1, by rw [this.2.1]; omega, ?_, ?_⟩
        · rw [this.2.2.1]
          simp [failureStats]
        · rw [this.2.2.2]
          simp [failureStats]
          omega

/-- C7 (amended): on an exhausted sequence the stats failure path runs once
per failed attempt (`max_retries + 1` times in total), and a single
aggregated error naming the last underlying cause is raised; on success at
any attempt the stats success path runs. -/
theorem stats_per_attempt_and_aggregated_error (name : String)
    (behavior : Nat → AttemptRes) (maxR : Nat) (d0 : ℚ) (st : ProviderStats)
    (now : Int)
    (hgate : st.circuit_breaker.can_attempt now = true) :
    ((∀ k, failsNonRL (behavior k) = true) →
      (call_with_retry name behavior maxR d0 st now).outcome =
        .exhausted
          (name ++ " failed after " ++ toString (maxR + 1) ++ " attempts")
          (msgOf (behavior (st.total_calls + maxR))) ∧
      (call_with_retry name behavior maxR d0 st now).stats.failed_calls =
        st.failed_calls + (maxR + 1) ∧
      (call_with_retry name behavior maxR d0 st now).attemptsMade =
        maxR + 1) ∧
    (∀ (k : Nat) (text : String) (elapsedMs : ℚ), k ≤ maxR →
      (∀ j, j < k → failsNonRL (behavior (st.total_calls + j)) = true) →
      behavior (st.total_calls + k) = .ok text elapsedMs →
      (call_with_retry name behavior maxR d0 st now).outcome =
        .success text ∧
      (call_with_retry name behavior maxR d0 st now).stats.successful_calls =
        st.successful_calls + 1 ∧
      (call_with_retry name behavior maxR d0 st now).stats.failed_calls =
        st.failed_calls + k ∧
      (call_with_retry name behavior maxR d0 st now).attemptsMade = k + 1) := by
  constructor
  · intro hfail
    have := retryFrom_allFail name behavior maxR now hfail (maxR + 1)
      (by omega) d0 st "None" 0 []
    simp only [Nat.add_sub_cancel] at this
    refine ⟨?_, ?_, ?_⟩ <;> simp [call_with_retry, hgate] <;>
      first
        | exact this.1
        | exact this.2.1
        | (rw [this.2.2]; omega)
  · intro k text elapsedMs hk hfails hok
    have := retryFrom_success_at name behavior maxR now k (maxR + 1)
      (by omega) d0 st "None" 0 [] text elapsedMs hfails hok
    refine ⟨?_, ?_, ?_, ?_⟩ <;> simp [call_with_retry, hgate] <;>
      first
        | exact this.1
        | exact this.2.2.1
        | exact this.2.2.2
        | (rw [this.2.1]; omega)

/-- Witness for C7 (amended): four timeouts exhaust the budget with four
failed-stats updates and one aggregated error naming the last timeout; and a
provider succeeding on its second attempt, after one timeout, runs the
success path once on top of one failed-stats update. -/
theorem stats_per_attempt_witness :
    ((call_with_retry "OllamaProvider" (fun _ => .err .timeout "timed out") 3 1
        {} 0).outcome =
      .exhausted
        ("OllamaProvider" ++ " failed after " ++ toString (3 + 1) ++ " attempts")
        (msgOf ((fun _ : Nat => AttemptRes.err .timeout "timed out")
          (ProviderStats.total_calls {} + 3))) ∧
    (call_with_retry "OllamaProvider" (fun _ => .err .timeout "timed out") 3 1
        {} 0).stats.failed_calls = ProviderStats.failed_calls {} + (3 + 1) ∧
    (call_with_retry "OllamaProvider" (fun _ => .err .timeout "timed out") 3 1
        {} 0).attemptsMade = 3 + 1) ∧
    ((call_with_retry "OllamaProvider"
        (fun n => if n = 0 then .err .timeout "timed out" else .ok "hello" 7)
        3 1 {} 0).outcome = .success "hello" ∧
    (call_with_retry "OllamaProvider"
        (fun n => if n = 0 then .err .timeout "timed out" else .ok "hello" 7)
        3 1 {} 0).stats.successful_calls =
      ProviderStats.successful_calls {} + 1 ∧
    (call_with_retry "OllamaProvider"
        (fun n => if n = 0 then .err .timeout "timed out" else .ok "hello" 7)
        3 1 {} 0).stats.failed_calls = ProviderStats.failed_calls {} + 1 ∧
    (call_with_retry "OllamaProvider"
        (fun n => if n = 0 then .err .timeout "timed out" else .ok "hello" 7)
        3 1 {} 0).attemptsMade = 1 + 1) :=
  ⟨(stats_per_attempt_and_aggregated_error "OllamaProvider"
      (fun _ => .err .timeout "timed out") 3 1 {} 0 (by rfl)).1
    (fun _ => by rfl),
    (stats_per_attempt_and_aggregated_error "OllamaProvider"
      (fun n => if n = 0 then .err .timeout "timed out" else .ok "hello" 7)
      3 1 {} 0 (by rfl)).2 1 "hello" 7 (by omega)
      (by
        intro j hj
        have hj0 : j = 0 := by omega
        subst hj0
        rfl)
      (by rfl)⟩

/-- C10: rate-limit classification is by substring matching on the error's
text — any first-attempt error whose text contains `429`, or whose
lower-cased text contains `rate limit`, is re-raised as a rate limit after
that single attempt regardless of the error's kind, consuming no retries. -/
theorem rate_limit_classification_by_substring (name : String)
    (behavior : Nat → AttemptRes) (maxR : Nat) (d0 : ℚ) (st : ProviderStats)
    (now : Int) (kind : ErrKind) (msg : String)
    (hgate : st.circuit_breaker.can_attempt now = true)
    (hb : behavior st.total_calls = .err kind msg)
    (hsub : containsSub "429".data msg.data = true ∨
      containsSub "rate limit".data (lowerChars msg.data) = true) :
    (call_with_retry name behavior maxR d0 st now).outcome =
      .rateLimited name ∧
    (call_with_retry name behavior maxR d0 st now).attemptsMade = 1 ∧
    (call_with_retry name behavior maxR d0 st now).stats.failed_calls =
      st.failed_calls + 1 := by
  have hrl : isRateLimitText msg = true := by
    rcases hsub with h | h <;> simp [isRateLimitText, h]
  exact retry_rateLimit_core name behavior maxR d0 st now kind msg hgate hb hrl

/-- Witness for C10: an otherwise-retryable response error whose message
merely mentions 429 is never retried. -/
theorem rate_limit_classification_witness :
    (call_with_retry "HuggingFaceProvider"
        (fun _ => .err .response "server said: error 429, slow down")
        LLM_MAX_RETRIES LLM_RETRY_DELAY {} 0).outcome =
      .rateLimited "HuggingFaceProvider" ∧
    (call_with_retry "HuggingFaceProvider"
        (fun _ => .err .response "server said: error 429, slow down")
        LLM_MAX_RETRIES LLM_RETRY_DELAY {} 0).attemptsMade = 1 ∧
    (call_with_retry "HuggingFaceProvider"
        (fun _ => .err .response "server said: error 429, slow down")
        LLM_MAX_RETRIES LLM_RETRY_DELAY {} 0).stats.failed_calls =
      ProviderStats.failed_calls {} + 1 :=
  rate_limit_classification_by_substring "HuggingFaceProvider"
    (fun _ => .err .response "server said: error 429, slow down")
    LLM_MAX_RETRIES LLM_RETRY_DELAY {} 0 .response
    "server said: error 429, slow down" (by rfl) (by rfl) (Or.inl (by rfl))

theorem routerLoop_errs_mono (now : Int) :
    ∀ (ps : List Provider) (i : Nat) (errs : List String),
      ∃ tail, (routerLoop now ps i errs).2.1 = errs ++ tail := by
  intro ps
  induction ps with
  | nil => intro i errs; exact ⟨[], by simp [routerLoop]⟩
  | cons p rest ih =>
    intro i errs
    by_cases hav : p.available
    · by_cases hcan : p.stats.circuit_breaker.can_attempt now
      · cases hout : (call_with_retry p.name p.behavior LLM_MAX_RETRIES
            LLM_RETRY_DELAY p.stats now).outcome with
        | success t => exact ⟨[], by simp [routerLoop, hav, hcan, hout]⟩
        | rateLimited q =>
          obtain ⟨tail, htail⟩ := ih (i + 1) (errs ++ [p.name ++ ": Rate limited"])
          exact ⟨[p.name ++ ": Rate limited"] ++ tail,
            by simp [routerLoop, hav, hcan, hout, htail]⟩
        | exhausted m d =>
          obtain ⟨tail, htail⟩ := ih (i + 1)
            (errs ++ [p.name ++ ": " ++ errText (.exhausted m d)])
          exact ⟨[p.name ++ ": " ++ errText (.exhausted m d)] ++ tail,
            by simp [routerLoop, hav, hcan, hout, htail]⟩
        | breakerOpen m d =>
          obtain ⟨tail, htail⟩ := ih (i + 1)
            (errs ++ [p.name ++ ": " ++ errText (.breakerOpen m d)])
          exact ⟨[p.name ++ ": " ++ errText (.breakerOpen m d)] ++ tail,
            by simp [routerLoop, hav, hcan, hout, htail]⟩
      · obtain ⟨tail, htail⟩ := ih (i + 1)
          (errs ++ [p.name ++ ": Circuit breaker open"])
        exact ⟨[p.name ++ ": Circuit breaker open"] ++ tail,
          by simp [routerLoop, hav, hcan, htail]⟩
    · obtain ⟨tail, htail⟩ := ih (i + 1) (errs ++ [p.name ++ ": Not available"])
      exact ⟨[p.name ++ ": Not available"] ++ tail,
        by simp [routerLoop, hav, htail]⟩

theorem routerLoop_all_unavailable (now : Int) :
    ∀ (ps : List Provider) (i : Nat) (errs : List String),
      (∀ p ∈ ps, p.available = false) →
      routerLoop now ps i errs =
        (ps, errs ++ ps.map (fun p => p.name ++ ": Not available"), none) := by
  intro ps
  induction ps with
  | nil => intro i errs _; simp [routerLoop]
  | cons p rest ih =>
    intro i errs h
    have hp : p.available = false := h p (by simp)
    have hrest : ∀ q ∈ rest, q.available = false := fun q hq => h q (by simp [hq])
    simp [routerLoop, hp, ih (i + 1) (errs ++ [p.name ++ ": Not available"]) hrest]

theorem routerLoop_none_length (now : Int) :
    ∀ (ps : List Provider) (i : Nat) (errs : List String),
      (routerLoop now ps i errs).2.2 = none →
      (routerLoop now ps i errs).2.1.length = errs.length + ps.length := by
  intro ps
  induction ps with
  | nil => intro i errs _; simp [routerLoop]
  | cons p rest ih =>
    intro i errs hnone
    by_cases hav : p.available
    · by_cases hcan : p.stats.circuit_breaker.can_attempt now
      · cases hout : (call_with_retry p.name p.behavior LLM_MAX_RETRIES
            LLM_RETRY_DELAY p.stats now).outcome with
        | success t => simp [routerLoop, hav, hcan, hout] at hnone
        | rateLimited q =>
          simp [routerLoop, hav, hcan, hout] at hnone ⊢
          have := ih (i + 1) (errs ++ [p.name ++ ": Rate limited"]) (by
            simpa [routerLoop, hav, hcan, hout] using hnone)
          simp at this
          omega
        | exhausted m d =>
          simp [routerLoop, hav, hcan, hout] at hnone ⊢
          have := ih (i + 1) (errs ++ [p.name ++ ": " ++ errText (.exhausted m d)])
            (by simpa [routerLoop, hav, hcan, hout] using hnone)
          simp at this
          omega
        | breakerOpen m d =>
          simp [routerLoop, hav, hcan, hout] at hnone ⊢
          have := ih (i + 1) (errs ++ [p.name ++ ": " ++ errText (.breakerOpen m d)])
            (by simpa [routerLoop, hav, hcan, hout] using hnone)
          simp at this
          omega
      · simp [routerLoop, hav, hcan] at hnone ⊢
        have := ih (i + 1) (errs ++ [p.name ++ ": Circuit breaker open"]) (by
          simpa [routerLoop, hav, hcan] using hnone)
        simp at this
        omega
    · simp [routerLoop, hav] at hnone ⊢
      have := ih (i + 1) (errs ++ [p.name ++ ": Not available"]) (by
        simpa [routerLoop, hav] using hnone)
      simp at this
      omega

/-- C1: dispatch order of `Router.call` — an eligible sticky provider is
invoked first and its success is returned immediately with every other
provider untouched and the sticky pointer unchanged; a sticky failure is
recorded as the first error entry and the call falls through to the full
list; and on the spec's `[A, B, C]` scenario (A unavailable, B's breaker
open, C succeeding) the call returns C's text and the sticky pointer
becomes C. -/
theorem router_sticky_first_dispatch :
    (∀ (rs : RouterState) (now : Int) (i : Nat) (p : Provider) (t : String),
      rs.last_successful_provider = some i →
      rs.providers[i]? = some p →
      p.stats.circuit_breaker.can_attempt now = true →
      (call_with_retry p.name p.behavior LLM_MAX_RETRIES LLM_RETRY_DELAY
          p.stats now).outcome = .success t →
      (routerCall rs now).outcome = .ok t ∧
      (routerCall rs now).state.last_successful_provider = some i ∧
      ∀ j, j ≠ i →
        (routerCall rs now).state.providers[j]? = rs.providers[j]?) ∧
    (∀ (rs : RouterState) (now : Int) (i : Nat) (p : Provider)
      (o : RetryOutcome),
      rs.last_successful_provider = some i →
      rs.providers[i]? = some p →
      p.stats.circuit_breaker.can_attempt now = true →
      (call_with_retry p.name p.behavior LLM_MAX_RETRIES LLM_RETRY_DELAY
          p.stats now).outcome = o →
      (∀ t, o ≠ .success t) →
      ∃ tail, (routerCall rs now).errors =
        (p.name ++ ": " ++ errText o) :: tail) ∧
    ((routerCall routerABC 0).outcome = .ok "from-C" ∧
     (routerCall routerABC 0).state.last_successful_provider = some 2 ∧
     (routerCall routerABC 0).errors =
       ["A: Not available", "B: Circuit breaker open"]) := by
  refine ⟨?_, ?_, by rfl, by rfl, by rfl⟩
  · intro rs now i p t h1 h2 h3 h4
    have hstick : stickyAttempt rs now =
        ([], rs.providers.set i
          { p with stats := (call_with_retry p.name p.behavior LLM_MAX_RETRIES
              LLM_RETRY_DELAY p.stats now).stats }, some t) := by
      simp [stickyAttempt, h1, h2, h3, h4]
    refine ⟨by simp [routerCall, hstick], ?_, ?_⟩
    · simp [routerCall, hstick, h1]
    · intro j hj
      simp [routerCall, hstick]
      exact List.getElem?_set_ne (Ne.symm hj)
  · intro rs now i p o h1 h2 h3 h4 hns
    cases o with
    | success t => exact absurd rfl (hns t)
    | rateLimited q =>
      have hstick : stickyAttempt rs now =
          ([p.name ++ ": " ++ errText (.rateLimited q)],
            rs.providers.set i
              { p with stats := (call_with_retry p.name p.behavior
                  LLM_MAX_RETRIES LLM_RETRY_DELAY p.stats now).stats },
            none) := by
        simp [stickyAttempt, h1, h2, h3, h4]
      obtain ⟨tail, htail⟩ := routerLoop_errs_mono now
        (rs.providers.set i
          { p with stats := (call_with_retry p.name p.behavior LLM_MAX_RETRIES
              LLM_RETRY_DELAY p.stats now).stats }) 0
        [p.name ++ ": " ++ errText (.rateLimited q)]
      refine ⟨tail, ?_⟩
      rcases hE : routerLoop now
        (rs.providers.set i
          { p with stats := (call_with_retry p.name p.behavior LLM_MAX_RETRIES
              LLM_RETRY_DELAY p.stats now).stats }) 0
        [p.name ++ ": " ++ errText (.rateLimited q)] with ⟨provs1, errs1, res⟩
      rw [hE] at htail
      cases res with
      | none => simp [routerCall, hstick, hE]; simpa using htail
      | some pair => simp [routerCall, hstick, hE]; simpa using htail
    | exhausted m d =>
      have hstick : stickyAttempt rs now =
          ([p.name ++ ": " ++ errText (.exhausted m d)],
            rs.providers.set i
              { p with stats := (call_with_retry p.name p.behavior
                  LLM_MAX_RETRIES LLM_RETRY_DELAY p.stats now).stats },
            none) := by
        simp [stickyAttempt, h1, h2, h3, h4]
      obtain ⟨tail, htail⟩ := routerLoop_errs_mono now
        (rs.providers.set i
          { p with stats := (call_with_retry p.name p.behavior LLM_MAX_RETRIES
              LLM_RETRY_DELAY p.stats now).stats }) 0
        [p.name ++ ": " ++ errText (.exhausted m d)]
      refine ⟨tail, ?_⟩
      rcases hE : routerLoop now
        (rs.providers.set i
          { p with stats := (call_with_retry p.name p.behavior LLM_MAX_RETRIES
              LLM_RETRY_DELAY p.stats now).stats }) 0
        [p.name ++ ": " ++ errText (.exhausted m d)] with ⟨provs1, errs1, res⟩
      rw [hE] at htail
      cases res with
      | none => simp [routerCall, hstick, hE]; simpa using htail
      | some pair => simp [routerCall, hstick, hE]; simpa using htail
    | breakerOpen m d =>
      have hstick : stickyAttempt rs now =
          ([p.name ++ ": " ++ errText (.breakerOpen m d)],
            rs.providers.set i
              { p with stats := (call_with_retry p.name p.behavior
                  LLM_MAX_RETRIES LLM_RETRY_DELAY p.stats now).stats },
            none) := by
        simp [stickyAttempt, h1, h2, h3, h4]
      obtain ⟨tail, htail⟩ := routerLoop_errs_mono now
        (rs.providers.set i
          { p with stats := (call_with_retry p.name p.behavior LLM_MAX_RETRIES
              LLM_RETRY_DELAY p.stats now).stats }) 0
        [p.name ++ ": " ++ errText (.breakerOpen m d)]
      refine ⟨tail, ?_⟩
      rcases hE : routerLoop now
        (rs.providers.set i
          { p with stats := (call_with_retry p.name p.behavior LLM_MAX_RETRIES
              LLM_RETRY_DELAY p.stats now).stats }) 0
        [p.name ++ ": " ++ errText (.breakerOpen m d)] with ⟨provs1, errs1, res⟩
      rw [hE] at htail
      cases res with
      | none => simp [routerCall, hstick, hE]; simpa using htail
      | some pair => simp [routerCall, hstick, hE]; simpa using htail

/-- Witness for C1: a router whose sticky provider succeeds immediately
returns that text with the sticky pointer unchanged. -/
theorem router_sticky_first_dispatch_witness :
    (routerCall routerStickyC 0).outcome = .ok "from-C" ∧
    (routerCall routerStickyC 0).state.last_successful_provider = some 0 :=
  ⟨(router_sticky_first_dispatch.1 routerStickyC 0 0 providerC "from-C"
      (by rfl) (by rfl) (by rfl) (by rfl)).1,
    (router_sticky_first_dispatch.1 routerStickyC 0 0 providerC "from-C"
      (by rfl) (by rfl) (by rfl) (by rfl)).2.1⟩

/-- C2: when every provider is skipped or fails, `Router.call` raises
exactly one aggregated error whose message is built from one recorded line
per provider; in particular, when all providers are unavailable the single
error enumerates `<name>: Not available` for every provider, never a bare
empty-list exception. -/
theorem router_single_aggregated_error :
    (∀ (rs : RouterState) (now : Int),
      rs.last_successful_provider = none →
      (∀ p ∈ rs.providers, p.available = false) →
      (routerCall rs now).outcome =
        .error (aggregatedError
          (rs.providers.map (fun p => p.name ++ ": Not available"))) ∧
      (routerCall rs now).errors =
        rs.providers.map (fun p => p.name ++ ": Not available")) ∧
    (∀ (rs : RouterState) (now : Int) (e : AggregatedError),
      rs.last_successful_provider = none →
      (routerCall rs now).outcome = .error e →
      e = aggregatedError ((routerCall rs now).errors) ∧
      (routerCall rs now).errors.length = rs.providers.length) := by
  constructor
  · intro rs now hsticky hall
    have hstick : stickyAttempt rs now = ([], rs.providers, none) := by
      simp [stickyAttempt, hsticky]
    have hloop := routerLoop_all_unavailable now rs.providers 0 [] hall
    constructor <;> simp [routerCall, hstick, hloop]
  · intro rs now e hsticky hout
    have hstick : stickyAttempt rs now = ([], rs.providers, none) := by
      simp [stickyAttempt, hsticky]
    have hlen := routerLoop_none_length now rs.providers 0 []
    rcases hE : routerLoop now rs.providers 0 [] with ⟨provs1, errs1, res⟩
    rw [hE] at hlen
    cases res with
    | some pair =>
      rcases pair with ⟨t, i⟩
      simp [routerCall, hstick, hE] at hout
    | none =>
      simp [routerCall, hstick, hE] at hout ⊢
      simp at hlen
      exact ⟨hout.symm, hlen⟩

/-- Witness for C2: a router whose only provider is unavailable raises the
aggregated error naming that provider. -/
theorem router_single_aggregated_error_witness :
    (routerCall routerDown 0).outcome =
      .error (aggregatedError
        (routerDown.providers.map (fun p => p.name ++ ": Not available"))) ∧
    (routerCall routerDown 0).errors =
      routerDown.providers.map (fun p => p.name ++ ": Not available") :=
  router_single_aggregated_error.1 routerDown 0 (by rfl)
    (by
      intro p hp
      simp [routerDown] at hp
      subst hp
      rfl)

/-- C9 (implicit): the step-2 iteration does not exclude the sticky
provider — with one always-failing provider that is also sticky, a single
`Router.call` attempts it in the sticky round and again in the list round,
for `2 * (max_retries + 1) = 8` physical attempts, two recorded error lines
for the same provider, and one aggregated error. -/
theorem sticky_provider_retried_in_loop :
    ((routerCall routerStickyBoom 0).state.providers.map
        (fun p => p.stats.total_calls)) = [2 * (LLM_MAX_RETRIES + 1)] ∧
    ((routerCall routerStickyBoom 0).state.providers.map
        (fun p => p.stats.failed_calls)) = [2 * (LLM_MAX_RETRIES + 1)] ∧
    (routerCall routerStickyBoom 0).errors =
      ["OllamaProvider: OllamaProvider failed after 4 attempts: boom",
        "OllamaProvider: OllamaProvider failed after 4 attempts: boom"] ∧
    (routerCall routerStickyBoom 0).outcome =
      .error (aggregatedError ((routerCall routerStickyBoom 0).errors)) :=
  ⟨by rfl, by rfl, by rfl, by rfl⟩

end OpsPilot
